import Mathlib

/-!
Verification of the Tiki e-commerce analytics ETL core
(`TikiTransform/scripts/transform_tiki.py` and
`TikiTransform/scripts/transform_google_trends.py`).

The Python code is shallowly embedded: cells of a pandas column are
modelled by `PyVal`; functions that can raise a Python exception are
modelled in `Except String`; `try/except` blocks catch the error case;
fallible conversions (`float(...)`, `int(...)`) that the code wraps in
`try/except` are modelled in `Option`.  The Python floats reachable in
the claims are short decimal literals whose arithmetic is exact, so
floats are modelled as exact decimal numbers (`DecFloat`); string
processing is modelled over `List Char`.
-/

/-- A finite Python float, modelled as the exact decimal `m / 10 ^ k`
(every float the claims exercise is a short decimal literal, for which
IEEE arithmetic agrees with exact decimal arithmetic). -/
structure DecFloat where
  m : Int
  k : Nat
deriving DecidableEq

/-- A Python value as it can appear in a raw-zone cell: `None`, the
float `NaN`, an int, a finite float, a string, or a JSON list. -/
inductive PyVal where
  | none
  | nan
  | int (n : Int)
  | float (f : DecFloat)
  | str (s : String)
  | list (xs : List PyVal)

/-- Scalar missing-value test: `pd.isna` on one scalar.  `None` and `NaN`
are missing; ints, floats, strings and (nested) list objects are not. -/
def scalarIsNa : PyVal → Bool
  | PyVal.none => true
  | PyVal.nan => true
  | _ => false

/-- `pd.isna(value)` used as the condition of an `if`.  On a scalar it is
a plain boolean.  On a list, pandas returns an element-wise boolean
array; taking the truth value of a one-element array yields its single
entry, while any other length raises
`ValueError: The truth value of an array ... is ambiguous`. -/
def pdIsNaTruth : PyVal → Except String Bool
  | PyVal.list [x] => Except.ok (scalarIsNa x)
  | PyVal.list _ => Except.error "ValueError: truth value of an array is ambiguous"
  | v => Except.ok (scalarIsNa v)

/-- Python truthiness (`not path_str` applied after the `isna` test):
the empty string, zero numbers and the empty list are falsy. -/
def pyFalsy : PyVal → Bool
  | PyVal.none => true
  | PyVal.nan => false
  | PyVal.int n => n = 0
  | PyVal.float f => f.m = 0
  | PyVal.str s => s = ""
  | PyVal.list xs => xs.isEmpty

/-- Python whitespace for `str.strip()` / `\s` (ASCII portion). -/
def isPyWs (c : Char) : Bool :=
  c = ' ' ∨ c = '\t' ∨ c = '\n' ∨ c = '\r' ∨ c = '\x0b' ∨ c = '\x0c'

/-- `str.strip()` on a character list. -/
def trimChars (cs : List Char) : List Char :=
  ((cs.dropWhile isPyWs).reverse.dropWhile isPyWs).reverse

/-- Value of a digit character. -/
def digitVal (c : Char) : Nat := c.toNat - '0'.toNat

/-- Natural number denoted by a list of digit characters. -/
def digitsToNat (cs : List Char) : Nat :=
  cs.foldl (fun a c => a * 10 + digitVal c) 0

/-- `int(s)` on a string: strip, then an optional sign followed by a
nonempty digit run; anything else raises (modelled as `Option.none`). -/
def pyIntParse (s : String) : Option Int :=
  match trimChars s.toList with
  | [] => Option.none
  | c :: cs =>
    if c = '-' then
      if cs ≠ [] ∧ cs.all Char.isDigit then Option.some (-(digitsToNat cs : Int))
      else Option.none
    else if c = '+' then
      if cs ≠ [] ∧ cs.all Char.isDigit then Option.some (digitsToNat cs : Int)
      else Option.none
    else if (c :: cs).all Char.isDigit then Option.some (digitsToNat (c :: cs) : Int)
    else Option.none

/-- `float(s)` restricted to the digit/dot strings that can reach it in
this code base (regex groups of digits with one separator, and
`clean_price` fall-through text stripped to `[0-9.]`): succeeds iff the
string has at least one digit and at most one dot, denoting the
corresponding exact decimal. -/
def pyFloatParse (s : String) : Option DecFloat :=
  let cs := trimChars s.toList
  if cs.any Char.isDigit ∧ cs.all (fun c => Char.isDigit c ∨ c = '.')
      ∧ (cs.filter (fun c => c = '.')).length ≤ 1 then
    let intPart := cs.takeWhile Char.isDigit
    let rest := cs.drop intPart.length
    let fracPart := rest.drop 1
    Option.some ⟨(digitsToNat intPart * 10 ^ fracPart.length + digitsToNat fracPart : Int),
      fracPart.length⟩
  else Option.none

/-- `int(x)` on a float: truncation toward zero. -/
def pyTruncFloat (f : DecFloat) : Int :=
  Int.tdiv f.m (10 ^ f.k)

/-- Multiplication of a float by an integer factor (exact here). -/
def decFloatMulInt (f : DecFloat) (n : Int) : DecFloat :=
  ⟨f.m * n, f.k⟩

/-- ASCII `str.lower()` applied character-wise (the Vietnamese
diacritics appearing in this data are unaffected in the theorems). -/
def lowerChars (cs : List Char) : List Char :=
  cs.map Char.toLower

/-- `needle in haystack` for Python strings: contiguous-substring test. -/
def charsContain (haystack needle : List Char) : Bool :=
  needle.isPrefixOf haystack ||
    match haystack with
    | [] => false
    | _ :: cs => charsContain cs needle

/-- The single-quote character used by Python `repr` of a string. -/
def pyQuote : String := String.mk [Char.ofNat 39]

mutual

/-- Python `repr(value)` (string escaping corners omitted; only the
shape of the rendering is ever observable below). -/
def pyRepr : PyVal → String
  | PyVal.none => "None"
  | PyVal.nan => "nan"
  | PyVal.int n => toString n
  | PyVal.float f => toString f.m ++ "e-" ++ toString f.k
  | PyVal.str s => pyQuote ++ s ++ pyQuote
  | PyVal.list xs => "[" ++ pyReprList xs ++ "]"

/-- Comma-separated element renderings inside a list `repr`. -/
def pyReprList : List PyVal → String
  | [] => ""
  | [x] => pyRepr x
  | x :: xs => pyRepr x ++ ", " ++ pyReprList xs

end

/-- `str(value)` for the cells the parsers receive: like `repr` except
that a top-level string is returned as itself. -/
def pyStr : PyVal → String
  | PyVal.str s => s
  | v => pyRepr v

example : pyIntParse " 1815 " = Option.some 1815 := by decide
example : pyIntParse "12a" = Option.none := by decide
example : pyFloatParse "1.5" = Option.some ⟨15, 1⟩ := by decide
example : pyFloatParse "1.2.3" = Option.none := by decide
example : pyTruncFloat ⟨25, 1⟩ = 2 := by decide
example : charsContain "xtiki_nowy".toList "tiki_now".toList = true := by decide

/-! ## Regex fragments used by the value parsers

Each Python regex is compiled by hand into a deterministic matcher with
the same greedy/backtracking behaviour on its pattern. -/

/-- The list `[n, n-1, ..., 1]`: candidate lengths for a greedy `\d+` /
`\d{1,3}` with backtracking, longest first. -/
def descLens (n : Nat) : List Nat :=
  (List.range n).map (fun i => n - i)

/-- Alternation `(k|tr|m|trieu|triệu)` at the head of the text, tried in
Python order (first alternative that matches wins). -/
def matchSuffixAlt (cs : List Char) : Option String :=
  (["k", "tr", "m", "trieu", "triệu"].find? (fun sfx => sfx.toList.isPrefixOf cs))

/-- Match `(\d+(?:[.,]\d+)?)\s*(k|tr|m|trieu|triệu)` anchored at the
start of `cs`; returns (group 1, group 2). -/
def matchSalesSuffixAt (cs : List Char) : Option (String × String) :=
  let d1 := cs.takeWhile Char.isDigit
  (descLens d1.length).findSome? (fun n =>
    let intDigits := d1.take n
    let rest := cs.drop n
    let withFrac : Option (String × String) :=
      match rest with
      | sep :: rest2 =>
        if sep = '.' ∨ sep = ',' then
          let fd := rest2.takeWhile Char.isDigit
          (descLens fd.length).findSome? (fun fn =>
            let rest4 := (rest2.drop fn).dropWhile isPyWs
            (matchSuffixAlt rest4).map (fun sfx =>
              (String.mk (intDigits ++ sep :: fd.take fn), sfx)))
        else Option.none
      | [] => Option.none
    withFrac <|>
      (matchSuffixAlt (rest.dropWhile isPyWs)).map (fun sfx => (String.mk intDigits, sfx)))

/-- `re.search` for the sales-suffix pattern: leftmost starting
position wins. -/
def searchSalesSuffix : List Char → Option (String × String)
  | [] => Option.none
  | c :: cs => matchSalesSuffixAt (c :: cs) <|> searchSalesSuffix cs

/-- Greedy `(?:\.\d{3})+` at the head of the text: the maximal run of
`.ddd` groups (giving a group back can never help, since the following
pattern text never matches a leading dot). -/
def dotGroups : List Char → List Char
  | '.' :: a :: b :: c :: rest =>
    if a.isDigit ∧ b.isDigit ∧ c.isDigit then '.' :: a :: b :: c :: dotGroups rest
    else []
  | _ => []

/-- Match `(\d{1,3}(?:\.\d{3})+)` anchored at the start of `cs`. -/
def matchThousandsAt (cs : List Char) : Option (List Char) :=
  let d1 := cs.takeWhile Char.isDigit
  (descLens (min 3 d1.length)).findSome? (fun n =>
    let g := dotGroups (cs.drop n)
    if g ≠ [] then Option.some (d1.take n ++ g) else Option.none)

/-- `re.search` for the thousands-separator pattern of
`parse_sales_volume`. -/
def searchThousands : List Char → Option (List Char)
  | [] => Option.none
  | c :: cs => matchThousandsAt (c :: cs) <|> searchThousands cs

/-- `re.search(r'(\d+)', text)`: the first maximal digit run. -/
def searchDigitRun : List Char → Option (List Char)
  | [] => Option.none
  | c :: cs =>
    if c.isDigit then Option.some ((c :: cs).takeWhile Char.isDigit)
    else searchDigitRun cs

/-- `re.search(r'/c(\d+)', text)`: first `/c` followed by a digit run. -/
def searchCatId : List Char → Option (List Char)
  | [] => Option.none
  | c :: cs =>
    match c, cs with
    | '/', 'c' :: rest =>
      let d := rest.takeWhile Char.isDigit
      if d ≠ [] then Option.some d else searchCatId cs
    | _, _ => searchCatId cs

/-- Tail `(?:\s*(?:đ|VND|₫))?[\s]*$` of the `clean_price` thousands
pattern, with `re.IGNORECASE`. -/
def priceTailOk (cs : List Char) : Bool :=
  (cs.all isPyWs) ||
    (let r := lowerChars (cs.dropWhile isPyWs)
     (["đ", "vnd", "₫"].any (fun cur =>
       cur.toList.isPrefixOf r ∧ (r.drop cur.toList.length).all isPyWs)))

/-- `re.match(r'^[\s]*(\d{1,3}(?:\.\d{3})+)(?:\s*(?:đ|VND|₫))?[\s]*$', text, re.IGNORECASE)`:
anchored at both ends; returns group 1. -/
def matchPriceThousands (cs : List Char) : Option (List Char) :=
  let cs := cs.dropWhile isPyWs
  let d1 := cs.takeWhile Char.isDigit
  (descLens (min 3 d1.length)).findSome? (fun n =>
    let g := dotGroups (cs.drop n)
    if g ≠ [] ∧ priceTailOk (cs.drop (n + g.length)) then
      Option.some (d1.take n ++ g)
    else Option.none)

example : searchSalesSuffix "1.5k".toList = Option.some ("1.5", "k") := by decide
example : searchSalesSuffix "đã bán 2,5k".toList = Option.some ("2,5", "k") := by decide
example : searchSalesSuffix "10.000".toList = Option.none := by decide
example : searchThousands "10.000".toList = Option.some "10.000".toList := by decide
example : matchPriceThousands "1.000.000 VND".toList = Option.some "1.000.000".toList := by decide
example : matchPriceThousands "1.000.0000".toList = Option.none := by decide

/-! ## Value parsers (`transform_tiki.py` lines 191-366, 555-572) -/

instance {ε α : Type} [DecidableEq ε] [DecidableEq α] : DecidableEq (Except ε α) := fun a b =>
  match a, b with
  | Except.ok x, Except.ok y =>
    if h : x = y then Decidable.isTrue (congrArg Except.ok h)
    else Decidable.isFalse (fun hc => h (Except.ok.inj hc))
  | Except.error x, Except.error y =>
    if h : x = y then Decidable.isTrue (congrArg Except.error h)
    else Decidable.isFalse (fun hc => h (Except.error.inj hc))
  | Except.ok _, Except.error _ => Decidable.isFalse (fun hc => Except.noConfusion hc)
  | Except.error _, Except.ok _ => Decidable.isFalse (fun hc => Except.noConfusion hc)

/-- The `multipliers` dict of `parse_sales_volume` with `.get(suffix, 1)`. -/
def salesMultiplier (sfx : String) : Int :=
  if sfx = "k" then 1000
  else if sfx = "tr" ∨ sfx = "trieu" ∨ sfx = "triệu" ∨ sfx = "m" then 1000000
  else 1

/-- Body of `parse_sales_volume` after its `pd.isna` guard (everything
past the guard is total: every fallible conversion sits in a
`try/except` returning 0). -/
def salesVolumeCore (v : PyVal) : Int :=
  match v with
  | PyVal.int n => n
  | PyVal.float f => pyTruncFloat f
  | _ =>
    let text := trimChars (lowerChars (pyStr v).toList)
    match searchSalesSuffix text with
    | Option.some (numStr, sfx) =>
      let numDot := String.mk (numStr.toList.map (fun c => if c = ',' then '.' else c))
      match pyFloatParse numDot with
      | Option.none => 0
      | Option.some q => pyTruncFloat (decFloatMulInt q (salesMultiplier sfx))
    | Option.none =>
      match searchThousands text with
      | Option.some g => (digitsToNat (g.filter (fun c => c ≠ '.')) : Int)
      | Option.none =>
        match searchDigitRun text with
        | Option.some d => (digitsToNat d : Int)
        | Option.none => 0

/-- `parse_sales_volume` (lines 191-258).  `pd.isna` can raise on a list
input (no surrounding `try`), hence the `Except`. -/
def parse_sales_volume (v : PyVal) : Except String Int :=
  (pdIsNaTruth v).map (fun na => if na then 0 else salesVolumeCore v)

/-- Body of `parse_discount_rate` after its `pd.isna` guard. -/
def discountRateCore (v : PyVal) : Int :=
  match v with
  | PyVal.int n => (n.natAbs : Int)
  | PyVal.float f => ((pyTruncFloat f).natAbs : Int)
  | _ =>
    match searchDigitRun (trimChars (pyStr v).toList) with
    | Option.some d => (digitsToNat d : Int)
    | Option.none => 0

/-- `parse_discount_rate` (lines 261-283). -/
def parse_discount_rate (v : PyVal) : Except String Int :=
  (pdIsNaTruth v).map (fun na => if na then 0 else discountRateCore v)

/-- Body of `extract_category_id` after its `pd.isna` guard. -/
def categoryIdCore (v : PyVal) : Option Int :=
  match searchCatId (pyStr v).toList with
  | Option.some d => Option.some (digitsToNat d : Int)
  | Option.none => Option.none

/-- `extract_category_id` (lines 286-305). -/
def extract_category_id (v : PyVal) : Except String (Option Int) :=
  (pdIsNaTruth v).map (fun na => if na then Option.none else categoryIdCore v)

/-- Body of `clean_price` after its `pd.isna` guard.  A numeric value is
truncated (`np.isnan` is false on every finite number; the float `NaN`
already returned through the `isna` branch). -/
def cleanPriceCore (v : PyVal) : Option Int :=
  match v with
  | PyVal.int n => Option.some n
  | PyVal.float f => Option.some (pyTruncFloat f)
  | _ =>
    let text := trimChars (pyStr v).toList
    match matchPriceThousands text with
    | Option.some g => Option.some (digitsToNat (g.filter (fun c => c ≠ '.')) : Int)
    | Option.none =>
      let cleaned := text.filter (fun c => Char.isDigit c ∨ c = '.')
      if cleaned = [] then Option.none
      else
        match pyFloatParse (String.mk cleaned) with
        | Option.some q => Option.some (pyTruncFloat q)
        | Option.none => Option.none

/-- `clean_price` (lines 308-347). -/
def clean_price (v : PyVal) : Except String (Option Int) :=
  (pdIsNaTruth v).map (fun na => if na then Option.none else cleanPriceCore v)

/-- A Python `datetime.date`. -/
structure PyDate where
  year : Nat
  month : Nat
  day : Nat
deriving DecidableEq

/-- Gregorian leap year. -/
def isLeapYear (y : Nat) : Bool :=
  y % 4 = 0 ∧ (y % 100 ≠ 0 ∨ y % 400 = 0)

/-- Days in a month, as validated by `datetime`. -/
def daysInMonth (y m : Nat) : Nat :=
  if m = 2 then (if isLeapYear y then 29 else 28)
  else if m = 4 ∨ m = 6 ∨ m = 9 ∨ m = 11 then 30
  else 31

/-- The `HH:MM:SS(.ffffff)` time tail accepted by
`datetime.fromisoformat` (hours alone, or hours:minutes, etc.). -/
def validIsoTime : List Char → Bool
  | h1 :: h2 :: rest =>
    h1.isDigit && h2.isDigit && Nat.blt (digitsToNat [h1, h2]) 24 &&
      (match rest with
       | [] => true
       | ':' :: m1 :: m2 :: rest2 =>
         m1.isDigit && m2.isDigit && Nat.blt (digitsToNat [m1, m2]) 60 &&
           (match rest2 with
            | [] => true
            | ':' :: s1 :: s2 :: rest3 =>
              s1.isDigit && s2.isDigit && Nat.blt (digitsToNat [s1, s2]) 60 &&
                (match rest3 with
                 | [] => true
                 | '.' :: frac =>
                   !frac.isEmpty && Nat.ble frac.length 6 && frac.all Char.isDigit
                 | _ => false)
            | _ => false)
       | _ => false)
  | _ => false

/-- `datetime.fromisoformat(s).date()`: a `YYYY-MM-DD` date, optionally
followed by a one-character separator and a valid time. -/
def fromIsoDate : List Char → Option PyDate
  | y1 :: y2 :: y3 :: y4 :: '-' :: m1 :: m2 :: '-' :: d1 :: d2 :: rest =>
    if [y1, y2, y3, y4, m1, m2, d1, d2].all Char.isDigit then
      let y := digitsToNat [y1, y2, y3, y4]
      let m := digitsToNat [m1, m2]
      let d := digitsToNat [d1, d2]
      if Nat.ble 1 m && Nat.ble m 12 && Nat.ble 1 d && Nat.ble d (daysInMonth y m) &&
          (match rest with
           | [] => true
           | _ :: t => validIsoTime t) then
        Option.some ⟨y, m, d⟩
      else Option.none
    else Option.none
  | _ => Option.none

/-- `str.replace('Z', '+00:00')`. -/
def replaceZ : List Char → List Char
  | [] => []
  | c :: cs =>
    if c = 'Z' then '+' :: '0' :: '0' :: ':' :: '0' :: '0' :: replaceZ cs
    else c :: replaceZ cs

/-- `parse_snapshot_date` (lines 350-366): replace `Z`, keep the text
before the first `+` (`split('+')[0]`), parse as ISO timestamp, return
the date; `ValueError` from the parse is caught to `None`. -/
def parse_snapshot_date (v : PyVal) : Except String (Option PyDate) :=
  (pdIsNaTruth v).map (fun na =>
    if na then Option.none
    else fromIsoDate ((replaceZ (pyStr v).toList).takeWhile (fun c => c ≠ '+')))

/-- `has_tiki_now` (lines 557-570): the whole body sits in a
`try/except Exception` that returns `False`, so the ambiguous-truth
`ValueError` from `pd.isna` on a multi-element list is swallowed.
A list is tested with `'tiki_now' in list(badges)` (exact, case
sensitive element equality); a string with
`'tiki_now' in badges.lower()` (substring of the lowercased text). -/
def has_tiki_now (badges : PyVal) : Bool :=
  let body : Except String Bool := do
    let na ← pdIsNaTruth badges
    if na then return false
    match badges with
    | PyVal.list xs =>
      return xs.any (fun x => match x with | PyVal.str s => s = "tiki_now" | _ => false)
    | PyVal.str s => return charsContain (lowerChars s.toList) "tiki_now".toList
    | _ => return false
  match body with
  | Except.ok b => b
  | Except.error _ => false

example : parse_sales_volume (PyVal.str "Đã bán 1.5k") = Except.ok 1500 := by decide
example : parse_sales_volume (PyVal.str "Đã bán 10.000") = Except.ok 10000 := by decide
example : parse_sales_volume (PyVal.str "Đã bán 1.5 triệu") = Except.ok 1500000 := by decide
example : parse_discount_rate (PyVal.str "-41%") = Except.ok 41 := by decide
example : clean_price (PyVal.str "$1000") = Except.ok (Option.some 1000) := by decide
example : clean_price (PyVal.str "1,000,000") = Except.ok (Option.some 1000000) := by decide
example : extract_category_id (PyVal.str "https://tiki.vn/tai-nghe/c8318") = Except.ok (Option.some 8318) := by decide
example : parse_snapshot_date (PyVal.str "2026-01-18T16:49:55.805Z") = Except.ok (Option.some ⟨2026, 1, 18⟩) := by decide
example : parse_snapshot_date (PyVal.str "2026/01/21") = Except.ok Option.none := by decide
example : has_tiki_now (PyVal.list [PyVal.str "tiki_now"]) = true := by decide

/-! ## Claims about the scalar parsers (C4, C5, C6, C7) -/

/-- A scalar cell (anything but a list/array). -/
def PyVal.isScalar : PyVal → Bool
  | PyVal.list _ => false
  | _ => true

lemma Except.isOk_map {ε α β : Type} (f : α → β) (x : Except ε α) :
    (x.map f).isOk = x.isOk := by
  cases x <;> rfl

lemma pdIsNaTruth_scalar (v : PyVal) (h : v.isScalar = true) :
    pdIsNaTruth v = Except.ok (scalarIsNa v) := by
  cases v with
  | list xs => exact absurd h (by simp [PyVal.isScalar])
  | none => rfl
  | nan => rfl
  | int n => rfl
  | float f => rfl
  | str s => rfl

/-- C4: for locale-suffixed sales strings, the parsed number is scaled
by the suffix factor; null parses to 0. -/
theorem C4_parse_sales_volume_suffix :
    parse_sales_volume (PyVal.str "1.5k") = Except.ok 1500 ∧
    parse_sales_volume (PyVal.str "2,5k") = Except.ok 2500 ∧
    parse_sales_volume (PyVal.str "1tr") = Except.ok 1000000 ∧
    parse_sales_volume PyVal.none = Except.ok 0 := by
  refine ⟨?_, ?_, ?_, ?_⟩ <;> decide

/-- C5: the price cleaner strips Vietnamese thousands separators and a
currency suffix, maps null to null, truncates a numeric input to an
integer, and maps the float `NaN` to null. -/
theorem C5_clean_price_examples :
    clean_price (PyVal.str "1.000.000 VND") = Except.ok (Option.some 1000000) ∧
    clean_price PyVal.none = Except.ok Option.none ∧
    clean_price (PyVal.float ⟨3520000, 0⟩) = Except.ok (Option.some 3520000) ∧
    clean_price PyVal.nan = Except.ok Option.none := by
  refine ⟨?_, ?_, ?_, ?_⟩ <;> decide

/-- C6 (code bug): `badges = ['tiki_now', 'freeship']` contains the
known tag, yet `has_tiki_now` returns `False`: `pd.isna` on the
two-element list raises the ambiguous-truth `ValueError`, which the
blanket `except` turns into `False` — contradicting the function's own
comment ("True if 'tiki_now' appears in badges array"). -/
theorem C6_has_tiki_now_misses_member_of_long_list :
    has_tiki_now (PyVal.list [PyVal.str "tiki_now", PyVal.str "freeship"]) = false := by
  decide

/-- One row of the transformed frame at the dedup step. -/
structure ProductRow (α : Type) where
  product_id : Option Int
  current_price : Option Int
  extracted_at : Nat
  rest : α
deriving DecidableEq

/-- The descending `extracted_at` order used by
`df.sort_values('extracted_at', ascending=False)`. -/
def tsDescRel {α : Type} (a b : ProductRow α) : Prop :=
  b.extracted_at ≤ a.extracted_at

instance {α : Type} : DecidableRel (tsDescRel (α := α)) :=
  fun a b => Nat.decLe b.extracted_at a.extracted_at

instance {α : Type} : IsTotal (ProductRow α) tsDescRel :=
  ⟨fun a b => Nat.le_total b.extracted_at a.extracted_at⟩

instance {α : Type} : IsTrans (ProductRow α) tsDescRel :=
  ⟨fun _ _ _ hab hbc => Nat.le_trans hbc hab⟩

/-- `df.drop_duplicates(subset=['product_id'], keep='first')`: keep the
first row for each `product_id` (pandas treats null keys as equal, as
does `Option Int` equality here). -/
def drop_duplicates_by_product_id {α : Type} :
    List (ProductRow α) → List (Option Int) → List (ProductRow α)
  | [], _ => []
  | r :: rs, seen =>
    if r.product_id ∈ seen then drop_duplicates_by_product_id rs seen
    else r :: drop_duplicates_by_product_id rs (r.product_id :: seen)

/-- Lines 582-585: sort by `extracted_at` descending, then keep the
first occurrence of each `product_id`.  (`sort_values` uses an unstable
quicksort; no theorem below relies on stability, so any sort for
`tsDescRel` is a faithful model.) -/
def dedup_products {α : Type} (rows : List (ProductRow α)) : List (ProductRow α) :=
  drop_duplicates_by_product_id (List.insertionSort tsDescRel rows) []

/-- Lines 593-595: `df.dropna(subset=['product_id', 'current_price'])`. -/
def dropna_critical {α : Type} (rows : List (ProductRow α)) : List (ProductRow α) :=
  rows.filter (fun r => r.product_id.isSome && r.current_price.isSome)

/-- The rows of the fact table produced by `transform_data`: dedup then
null-validation (the later fact-column selection drops no rows). -/
def fact_rows {α : Type} (rows : List (ProductRow α)) : List (ProductRow α) :=
  dropna_critical (dedup_products rows)

/-- `run_transformation` (lines 852-860), from the point where the raw
frame has been normalized: if the fact frame is empty a `ValueError` is
raised; only otherwise does `save_to_clean_zone` run, producing the
three clean-zone outputs (modelled by their GCS prefixes in the `ok`
payload — an error therefore carries no written output). -/
def run_transformation {α : Type} (rows : List (ProductRow α)) : Except String (List String) :=
  let fact := fact_rows rows
  if fact.isEmpty then
    Except.error "Transformation resulted in empty fact DataFrame"
  else
    Except.ok ["clean_zone/tiki/fact_daily_snapshot", "clean_zone/tiki/dim_products",
      "clean_zone/tiki/dim_categories"]

lemma filter_drop_duplicates_of_seen {α : Type} (k : Int) :
    ∀ (l : List (ProductRow α)) (seen : List (Option Int)),
      Option.some k ∈ seen →
      (drop_duplicates_by_product_id l seen).filter
        (fun r => r.product_id = Option.some k) = []
  | [], _, _ => rfl
  | r :: rs, seen, hk => by
    by_cases hmem : r.product_id ∈ seen
    · simp only [drop_duplicates_by_product_id, if_pos hmem]
      exact filter_drop_duplicates_of_seen k rs seen hk
    · simp only [drop_duplicates_by_product_id, if_neg hmem]
      have hne : ¬ r.product_id = Option.some k := by
        intro he; exact hmem (he ▸ hk)
      rw [List.filter_cons_of_neg (by simpa using hne)]
      exact filter_drop_duplicates_of_seen k rs (r.product_id :: seen)
        (List.mem_cons_of_mem _ hk)

lemma filter_drop_duplicates_eq_find? {α : Type} (k : Int) :
    ∀ (l : List (ProductRow α)) (seen : List (Option Int)),
      Option.some k ∉ seen →
      (drop_duplicates_by_product_id l seen).filter
          (fun r => r.product_id = Option.some k) =
        (l.find? (fun r => r.product_id = Option.some k)).toList
  | [], _, _ => rfl
  | r :: rs, seen, hk => by
    by_cases hmem : r.product_id ∈ seen
    · have hne : ¬ (r.product_id = Option.some k) := by
        intro he; exact hk (he ▸ hmem)
      simp only [drop_duplicates_by_product_id, if_pos hmem]
      rw [List.find?_cons_of_neg _ (by simpa using hne)]
      exact filter_drop_duplicates_eq_find? k rs seen hk
    · simp only [drop_duplicates_by_product_id, if_neg hmem]
      by_cases hP : r.product_id = Option.some k
      · rw [List.filter_cons_of_pos (by simpa using hP),
          List.find?_cons_of_pos _ (by simpa using hP)]
        have : (drop_duplicates_by_product_id rs (r.product_id :: seen)).filter
            (fun r => r.product_id = Option.some k) = [] :=
          filter_drop_duplicates_of_seen k rs (r.product_id :: seen)
            (by rw [hP]; exact List.mem_cons_self _ _)
        rw [this]
        rfl
      · rw [List.filter_cons_of_neg (by simpa using hP),
          List.find?_cons_of_neg _ (by simpa using hP)]
        exact filter_drop_duplicates_eq_find? k rs (r.product_id :: seen)
          (by
            intro hmem2
            rcases List.mem_cons.mp hmem2 with he | hs
            · exact hP he.symm
            · exact hk hs)

lemma sorted_find?_ts_max {α : Type} (q : ProductRow α → Bool) :
    ∀ (l : List (ProductRow α)), l.Sorted tsDescRel →
      ∀ a, l.find? q = Option.some a →
      ∀ b, b ∈ l → q b = true → b.extracted_at ≤ a.extracted_at
  | [], _, _, ha, _, hb, _ => by cases hb
  | x :: xs, hs, a, ha, b, hb, hqb => by
    by_cases hqx : q x = true
    · rw [List.find?_cons_of_pos _ hqx] at ha
      injection ha with ha
      subst ha
      rcases List.mem_cons.mp hb with he | hmem
      · exact he ▸ Nat.le_refl _
      · exact List.rel_of_sorted_cons hs b hmem
    · rw [List.find?_cons_of_neg _ hqx] at ha
      rcases List.mem_cons.mp hb with he | hmem
      · exact absurd (he ▸ hqb) hqx
      · exact sorted_find?_ts_max q xs hs.of_cons a ha b hmem hqb

/-- C2: if exactly two rows of the batch share a product id and their
timestamps differ, the deduplicated frame has exactly one row for that
id, and it is (all fields included) the later-timestamped input row. -/
theorem C2_dedup_latest_wins {α : Type} (rows : List (ProductRow α)) (p : Int)
    (r1 r2 : ProductRow α)
    (h1 : r1 ∈ rows) (h2 : r2 ∈ rows)
    (hp1 : r1.product_id = Option.some p) (hp2 : r2.product_id = Option.some p)
    (hts : r1.extracted_at < r2.extracted_at)
    (honly : ∀ r ∈ rows, r.product_id = Option.some p → r = r1 ∨ r = r2) :
    (dedup_products rows).filter (fun r => r.product_id = Option.some p) = [r2] := by
  have hperm := List.perm_insertionSort tsDescRel rows
  have hsorted := List.sorted_insertionSort tsDescRel rows
  set l := List.insertionSort tsDescRel rows with hl
  have h2l : r2 ∈ l := hperm.mem_iff.mpr h2
  have hfindsome : (l.find? (fun r => r.product_id = Option.some p)).isSome := by
    rw [List.find?_isSome]
    exact ⟨r2, h2l, by simp [hp2]⟩
  obtain ⟨a, ha⟩ := Option.isSome_iff_exists.mp hfindsome
  have hal : a ∈ l := List.mem_of_find?_eq_some ha
  have harows : a ∈ rows := hperm.mem_iff.mp hal
  have hap : a.product_id = Option.some p := by
    have := List.find?_some ha
    simpa using this
  have ha2 : a = r2 := by
    rcases honly a harows hap with he | he
    · exfalso
      have hle := sorted_find?_ts_max (fun r => r.product_id = Option.some p) l hsorted
        a ha r2 h2l (by simp [hp2])
      rw [he] at hle
      exact absurd hts (Nat.not_lt.mpr hle)
    · exact he
  have : (dedup_products rows).filter (fun r => r.product_id = Option.some p) =
      (l.find? (fun r => r.product_id = Option.some p)).toList := by
    unfold dedup_products
    rw [← hl]
    exact filter_drop_duplicates_eq_find? p l [] (by simp)
  rw [this, ha, ha2]
  rfl

/-- Witness for C2 on a concrete three-row batch: product 7 appears at
timestamps 1 and 5 (different prices and payloads); the dedup output
for product 7 is exactly the timestamp-5 row. -/
theorem C2_witness :
    (dedup_products [(⟨Option.some 7, Option.some 100, 1, 10⟩ : ProductRow Nat),
        ⟨Option.some 7, Option.some 200, 5, 20⟩,
        ⟨Option.some 8, Option.some 300, 3, 30⟩]).filter
      (fun r => r.product_id = Option.some 7) =
    [⟨Option.some 7, Option.some 200, 5, 20⟩] :=
  C2_dedup_latest_wins _ 7 ⟨Option.some 7, Option.some 100, 1, 10⟩
    ⟨Option.some 7, Option.some 200, 5, 20⟩
    (by decide) (by decide) rfl rfl (by decide) (by decide)

/-- C9: when the fact frame is empty after transformation the pipeline
raises the descriptive `ValueError` to the caller; the error branch
carries no written output (`save_to_clean_zone` is only reached in the
`ok` branch). -/
theorem C9_empty_fact_aborts_before_save {α : Type} (rows : List (ProductRow α))
    (h : fact_rows rows = []) :
    run_transformation rows =
      Except.error "Transformation resulted in empty fact DataFrame" := by
  simp [run_transformation, h]

/-- Witness for C9: a batch whose single row lacks a product id parses
to an empty fact table and aborts with the descriptive error. -/
theorem C9_witness :
    run_transformation [(⟨Option.none, Option.some 5, 3, 0⟩ : ProductRow Nat)] =
      Except.error "Transformation resulted in empty fact DataFrame" :=
  C9_empty_fact_aborts_before_save _ (by decide)

/-! ## Google-trends transform (`transform_google_trends.py`)

Score cleaning (lines 86-107) runs before the `(date, keyword)`
aggregation (lines 134-154), so the aggregation consumes a column of
non-null `int64` scores.  Dates are modelled by an order-preserving
`Nat` encoding; `is_partial` is modelled by the field `partFlag`. -/

/-- A long-format trend row as it enters the aggregation step. -/
structure TrendRow where
  date : Nat
  keyword : String
  score : Int
  partFlag : Bool
  inserted_at : Nat
deriving DecidableEq

/-- The groupby key `(date, keyword)`. -/
def keyOf (r : TrendRow) : Nat × String := (r.date, r.keyword)

/-- Order on group keys (`groupby` emits groups sorted by key). -/
def keyLE (a b : Nat × String) : Prop :=
  a.1 < b.1 ∨ (a.1 = b.1 ∧ a.2 ≤ b.2)

instance : DecidableRel keyLE := fun a b => by
  unfold keyLE; infer_instance

instance : IsTotal (Nat × String) keyLE :=
  ⟨fun a b => by
    rcases Nat.lt_trichotomy a.1 b.1 with h | h | h
    · exact Or.inl (Or.inl h)
    · rcases le_total a.2 b.2 with h2 | h2
      · exact Or.inl (Or.inr ⟨h, h2⟩)
      · exact Or.inr (Or.inr ⟨h.symm, h2⟩)
    · exact Or.inr (Or.inl h)⟩

instance : IsTrans (Nat × String) keyLE :=
  ⟨fun a b c hab hbc => by
    rcases hab with h1 | ⟨he1, hl1⟩
    · rcases hbc with h2 | ⟨he2, _⟩
      · exact Or.inl (Nat.lt_trans h1 h2)
      · exact Or.inl (he2 ▸ h1)
    · rcases hbc with h2 | ⟨he2, hl2⟩
      · exact Or.inl (he1 ▸ h2)
      · exact Or.inr ⟨he1.trans he2, hl1.trans hl2⟩⟩

/-- Aggregation of one `(date, keyword)` group:
`agg({'score': 'max', 'is_partial': 'max', 'inserted_at': 'max'})`
(`max` on booleans is disjunction).  A key taken from the frame always
has a nonempty group; the `[]` case is unreachable. -/
def aggGroup (k : Nat × String) (g : List TrendRow) : TrendRow :=
  match g with
  | [] => ⟨k.1, k.2, 0, false, 0⟩
  | r :: rs =>
    ⟨k.1, k.2,
      rs.foldl (fun a s => max a s.score) r.score,
      rs.foldl (fun a s => a || s.partFlag) r.partFlag,
      rs.foldl (fun a s => max a s.inserted_at) r.inserted_at⟩

/-- Lines 142-146: `df_long.groupby(['date', 'keyword'], as_index=False).agg(...)`:
one output row per distinct key (sorted by key), aggregating that key's
rows. -/
def trend_aggregate (rows : List TrendRow) : List TrendRow :=
  (List.insertionSort keyLE (rows.map keyOf).dedup).map
    (fun k => aggGroup k (rows.filter (fun r => keyOf r = k)))

/-- Is the cell a Python string? -/
def isStrCell : PyVal → Bool
  | PyVal.str _ => true
  | _ => false

/-- Result of the numeric-string grammar of pandas\' coercion: a finite
decimal or an infinity. -/
inductive PyNum where
  | finite (f : DecFloat)
  | posInf
  | negInf
deriving DecidableEq

/-- Negation, for a leading minus sign. -/
def pyNumNeg : PyNum → PyNum
  | PyNum.finite f => PyNum.finite ⟨-f.m, f.k⟩
  | PyNum.posInf => PyNum.negInf
  | PyNum.negInf => PyNum.posInf

/-- Unsigned body of a numeric string as pandas\' coercion accepts it:
`inf`/`infinity` (case-insensitive), or a decimal mantissa
`digits[.digits]` (at least one digit) with an optional `e`/`E`
signed-integer exponent — so `1e5` denotes 100000.  Exponents are
applied exactly; the claims never exercise magnitudes at the edge of
float range. -/
def parseNumBody (cs : List Char) : Option PyNum :=
  let lc := lowerChars cs
  if lc = "inf".toList ∨ lc = "infinity".toList then Option.some PyNum.posInf
  else
    let intPart := cs.takeWhile Char.isDigit
    let rest1 := cs.drop intPart.length
    let fracPart := match rest1 with
      | '.' :: t => t.takeWhile Char.isDigit
      | _ => []
    let rest2 := match rest1 with
      | '.' :: t => t.drop fracPart.length
      | _ => rest1
    if intPart = [] ∧ fracPart = [] then Option.none
    else
      let m : Int := (digitsToNat intPart * 10 ^ fracPart.length + digitsToNat fracPart : Nat)
      match rest2 with
      | [] => Option.some (PyNum.finite ⟨m, fracPart.length⟩)
      | c :: rest3 =>
        if c = 'e' ∨ c = 'E' then
          let sgn : Bool × List Char := match rest3 with
            | '-' :: t => (true, t)
            | '+' :: t => (false, t)
            | t => (false, t)
          if sgn.2 ≠ [] ∧ sgn.2.all Char.isDigit then
            Option.some (PyNum.finite (if sgn.1 then ⟨m, fracPart.length + digitsToNat sgn.2⟩
              else ⟨m * 10 ^ digitsToNat sgn.2, fracPart.length⟩))
          else Option.none
        else Option.none

/-- The numeric-string grammar of `pd.to_numeric`: strip, optional
sign, then `parseNumBody`; failure means the string coerces to `NaN`
(the literal `nan` likewise yields a missing value). -/
def pyNumericStrParse (s : String) : Option PyNum :=
  match trimChars s.toList with
  | '-' :: rest => (parseNumBody rest).map pyNumNeg
  | '+' :: rest => parseNumBody rest
  | cs => parseNumBody cs

/-- A score-column cell between the numeric coercion and the `int64`
cast: a finite number, an infinity, a missing value, or a non-numeric
object (pandas raises on the latter two at the cast).  `PyVal` floats
are finite, so in this universe an infinity enters the column through
a string cell. -/
inductive NumCell where
  | num (f : DecFloat)
  | posInf
  | negInf
  | na
  | obj
deriving DecidableEq

/-- `pd.to_numeric(x, errors='coerce')` on one cell: strings parse by
`pyNumericStrParse` and coerce to `NaN` on failure; numbers pass
through; missing stays missing.  (A list cell is kept as a raising
object; pandas errors on it.) -/
def toNumericCoerce : PyVal → NumCell
  | PyVal.str s =>
    match pyNumericStrParse s with
    | Option.some (PyNum.finite f) => NumCell.num f
    | Option.some PyNum.posInf => NumCell.posInf
    | Option.some PyNum.negInf => NumCell.negInf
    | Option.none => NumCell.na
  | PyVal.int n => NumCell.num ⟨n, 0⟩
  | PyVal.float f => NumCell.num f
  | PyVal.none => NumCell.na
  | PyVal.nan => NumCell.na
  | PyVal.list _ => NumCell.obj

/-- The identity view of a column that skipped the object-dtype pass
(taken when no cell is a string): numbers and missing values pass
through; anything else is a raising object. -/
def cellAsNum : PyVal → NumCell
  | PyVal.int n => NumCell.num ⟨n, 0⟩
  | PyVal.float f => NumCell.num f
  | PyVal.none => NumCell.na
  | PyVal.nan => NumCell.na
  | _ => NumCell.obj

/-- Line 95: `df_long['score'].replace('<1', '0')` (exact-match cell
replacement). -/
def replaceLtOne : PyVal → PyVal
  | PyVal.str s => if s = "<1" then PyVal.str "0" else PyVal.str s
  | c => c

/-- Line 104: `fillna(0)` — fills missing cells only; an infinity is
not missing and passes through. -/
def fillnaZero (c : NumCell) : NumCell :=
  match c with
  | NumCell.na => NumCell.num ⟨0, 0⟩
  | c => c

/-- One score cell after steps 4a-4b: the `'<1'`/`to_numeric` pass runs
only when the column dtype is `object`, i.e. when some cell is a
string (`hasStr`); `fillna(0)` runs always. -/
def cleanedScore (hasStr : Bool) (c : PyVal) : NumCell :=
  fillnaZero (if hasStr then toNumericCoerce (replaceLtOne c) else cellAsNum c)

/-- `astype('int64')` on one cell: finite floats truncate toward zero;
an infinity raises (`Cannot convert non-finite values to integer`), as
does a non-numeric object. -/
def astypeCellInt : NumCell → Option Int
  | NumCell.num f => Option.some (pyTruncFloat f)
  | _ => Option.none

/-- `astype('int64')` on the column (raises iff some cell does). -/
def astypeInt64 : List NumCell → Option (List Int)
  | [] => Option.some []
  | c :: cs =>
    match astypeCellInt c, astypeInt64 cs with
    | Option.some n, Option.some ns => Option.some (n :: ns)
    | _, _ => Option.none

/-- Steps 4a-4c of `transform_trends_data` on the melted `score`
column. -/
def trend_clean_scores (cells : List PyVal) : Option (List Int) :=
  astypeInt64 (cells.map (cleanedScore (cells.any isStrCell)))

/-- Does the string denote an infinity under the numeric coercion
(the one way a string cell can still abort the `int64` cast)? -/
def parsesInf (s : String) : Bool :=
  match pyNumericStrParse s with
  | Option.some PyNum.posInf => true
  | Option.some PyNum.negInf => true
  | _ => false

example : pyNumericStrParse "1e5" = Option.some (PyNum.finite ⟨100000, 0⟩) := by decide
example : pyNumericStrParse "-2.5E-1" = Option.some (PyNum.finite ⟨-25, 2⟩) := by decide
example : pyNumericStrParse "Infinity" = Option.some PyNum.posInf := by decide
example : pyNumericStrParse "abc" = Option.none := by decide
example : trend_clean_scores [PyVal.str "1e5"] = Option.some [100000] := by decide
example : trend_clean_scores [PyVal.str "inf"] = Option.none := by decide
example : trend_clean_scores [PyVal.str "<1", PyVal.str "7"] = Option.some [0, 7] := by decide

lemma keyOf_aggGroup (k : Nat × String) (g : List TrendRow) :
    keyOf (aggGroup k g) = k := by
  cases g <;> rfl

lemma foldl_max_init_le {α : Type} [LinearOrder α] (f : TrendRow → α) :
    ∀ (l : List TrendRow) (a : α), a ≤ l.foldl (fun acc s => max acc (f s)) a
  | [], a => le_refl a
  | r :: rs, a =>
    le_trans (le_max_left a (f r)) (foldl_max_init_le f rs (max a (f r)))

lemma foldl_max_le_of_mem {α : Type} [LinearOrder α] (f : TrendRow → α) :
    ∀ (l : List TrendRow) (a : α) (b : TrendRow), b ∈ l →
      f b ≤ l.foldl (fun acc s => max acc (f s)) a
  | [], _, _, hb => absurd hb (List.not_mem_nil _)
  | r :: rs, a, b, hb => by
    rw [List.foldl_cons]
    rcases List.mem_cons.mp hb with he | hmem
    · rw [he]
      exact le_trans (le_max_right a (f r)) (foldl_max_init_le f rs _)
    · exact foldl_max_le_of_mem f rs (max a (f r)) b hmem

lemma foldl_max_mem {α : Type} [LinearOrder α] (f : TrendRow → α) :
    ∀ (l : List TrendRow) (a : α),
      l.foldl (fun acc s => max acc (f s)) a = a ∨
        l.foldl (fun acc s => max acc (f s)) a ∈ l.map f
  | [], a => Or.inl rfl
  | r :: rs, a => by
    rcases foldl_max_mem f rs (max a (f r)) with he | hmem
    · rcases max_choice a (f r) with hm | hm
      · exact Or.inl (by rw [List.foldl_cons, he, hm])
      · refine Or.inr ?_
        rw [List.foldl_cons, he, hm]
        exact List.mem_cons_self _ _
    · exact Or.inr (List.mem_cons_of_mem _ hmem)

lemma foldl_or_eq_any :
    ∀ (l : List TrendRow) (a : Bool),
      l.foldl (fun acc s => acc || s.partFlag) a = (a || l.any TrendRow.partFlag)
  | [], a => by simp
  | r :: rs, a => by
    rw [List.foldl_cons, foldl_or_eq_any rs (a || r.partFlag), List.any_cons]
    simp [Bool.or_assoc]

lemma filter_map_aggGroup (k : Nat × String) (f : Nat × String → TrendRow)
    (hf : ∀ k2, keyOf (f k2) = k2) :
    ∀ (keys : List (Nat × String)), keys.Nodup → k ∈ keys →
      (keys.map f).filter (fun r => keyOf r = k) = [f k]
  | k2 :: ks, hnd, hk => by
    rcases List.mem_cons.mp hk with he | hmem
    · subst he
      rw [List.map_cons, List.filter_cons_of_pos (by simp [hf])]
      have hrest : (ks.map f).filter (fun r => keyOf r = k) = [] := by
        rw [List.filter_eq_nil_iff]
        intro r hr
        rcases List.mem_map.mp hr with ⟨k3, hk3, he3⟩
        have hne : k3 ≠ k := fun he4 => (List.nodup_cons.mp hnd).1 (he4 ▸ hk3)
        simp [← he3, hf, hne]
      rw [hrest]
    · have hne : k2 ≠ k := fun he4 => (List.nodup_cons.mp hnd).1 (he4 ▸ hmem)
      rw [List.map_cons, List.filter_cons_of_neg (by simp [hf, hne]),
        filter_map_aggGroup k f hf ks (List.nodup_cons.mp hnd).2 hmem]

/-- C3: when a `(date, keyword)` pair occurs in several input rows, the
aggregation emits exactly one row for that pair, whose score is the
maximum of the group's scores, whose `is_partial` is true iff some
group row is partial, and whose `inserted_at` is the group's maximum
timestamp. -/
theorem C3_trend_duplicate_keys_aggregate (rows : List TrendRow) (d : Nat) (kw : String)
    (hdup : 2 ≤ (rows.filter (fun r => keyOf r = (d, kw))).length) :
    ∃ out,
      (trend_aggregate rows).filter (fun r => keyOf r = (d, kw)) = [out] ∧
      out.date = d ∧ out.keyword = kw ∧
      out.score ∈ (rows.filter (fun r => keyOf r = (d, kw))).map TrendRow.score ∧
      (∀ r ∈ rows.filter (fun r => keyOf r = (d, kw)), r.score ≤ out.score) ∧
      (out.partFlag = true ↔ ∃ r ∈ rows.filter (fun r => keyOf r = (d, kw)), r.partFlag = true) ∧
      out.inserted_at ∈ (rows.filter (fun r => keyOf r = (d, kw))).map TrendRow.inserted_at ∧
      (∀ r ∈ rows.filter (fun r => keyOf r = (d, kw)), r.inserted_at ≤ out.inserted_at) := by
  set g := rows.filter (fun r => keyOf r = (d, kw)) with hg
  have hgne : g ≠ [] := by
    intro he
    rw [he] at hdup
    exact absurd hdup (by decide)
  obtain ⟨r, rs, hcons⟩ := List.exists_cons_of_ne_nil hgne
  have hkeys_mem : (d, kw) ∈ List.insertionSort keyLE (rows.map keyOf).dedup := by
    have hrg : r ∈ g := by rw [hcons]; exact List.mem_cons_self _ _
    have hrrows : r ∈ rows := (List.mem_filter.mp hrg).1
    have hrk : keyOf r = (d, kw) := by
      have := (List.mem_filter.mp hrg).2
      simpa using this
    have : (d, kw) ∈ rows.map keyOf := List.mem_map.mpr ⟨r, hrrows, hrk⟩
    exact (List.perm_insertionSort keyLE _).mem_iff.mpr (List.mem_dedup.mpr this)
  have hkeys_nodup : (List.insertionSort keyLE (rows.map keyOf).dedup).Nodup :=
    (List.perm_insertionSort keyLE _).nodup_iff.mpr (List.nodup_dedup _)
  have hfilter : (trend_aggregate rows).filter (fun r => keyOf r = (d, kw)) =
      [aggGroup (d, kw) g] := by
    unfold trend_aggregate
    rw [hg]
    exact filter_map_aggGroup (d, kw)
      (fun k => aggGroup k (rows.filter (fun r => keyOf r = k)))
      (fun k2 => keyOf_aggGroup k2 _) _ hkeys_nodup hkeys_mem
  refine ⟨aggGroup (d, kw) g, hfilter, ?_, ?_, ?_, ?_, ?_, ?_, ?_⟩
  · rw [hcons]; rfl
  · rw [hcons]; rfl
  · rw [hcons]
    rcases foldl_max_mem TrendRow.score rs r.score with he | hmem
    · rw [List.map_cons]
      exact he ▸ List.mem_cons_self _ _
    · rw [List.map_cons]
      exact List.mem_cons_of_mem _ hmem
  · intro x hx
    rw [hcons] at hx ⊢
    rcases List.mem_cons.mp hx with he | hmem
    · exact he ▸ foldl_max_init_le TrendRow.score rs r.score
    · exact foldl_max_le_of_mem TrendRow.score rs r.score x hmem
  · rw [hcons]
    show (rs.foldl (fun a s => a || s.partFlag) r.partFlag = true) ↔ _
    rw [foldl_or_eq_any rs r.partFlag]
    constructor
    · intro h
      rcases Bool.or_eq_true_iff.mp h with hr | hany
      · exact ⟨r, List.mem_cons_self _ _, hr⟩
      · obtain ⟨x, hx, hpx⟩ := List.any_eq_true.mp hany
        exact ⟨x, List.mem_cons_of_mem _ hx, hpx⟩
    · rintro ⟨x, hx, hpx⟩
      rcases List.mem_cons.mp hx with he | hmem
      · exact Bool.or_eq_true_iff.mpr (Or.inl (he ▸ hpx))
      · exact Bool.or_eq_true_iff.mpr (Or.inr (List.any_eq_true.mpr ⟨x, hmem, hpx⟩))
  · rw [hcons]
    rcases foldl_max_mem TrendRow.inserted_at rs r.inserted_at with he | hmem
    · rw [List.map_cons]
      exact he ▸ List.mem_cons_self _ _
    · rw [List.map_cons]
      exact List.mem_cons_of_mem _ hmem
  · intro x hx
    rw [hcons] at hx ⊢
    rcases List.mem_cons.mp hx with he | hmem
    · exact he ▸ foldl_max_init_le TrendRow.inserted_at rs r.inserted_at
    · exact foldl_max_le_of_mem TrendRow.inserted_at rs r.inserted_at x hmem

/-- Witness for C3: scores 5 and 8 for the same key aggregate to one
row with score 8, is_partial true, and the later timestamp. -/
theorem C3_witness :
    2 ≤ (([⟨1, "ao khoac", 5, false, 10⟩, ⟨1, "ao khoac", 8, true, 20⟩] :
        List TrendRow).filter (fun r => keyOf r = (1, "ao khoac"))).length ∧
    ∃ out,
      (trend_aggregate [⟨1, "ao khoac", 5, false, 10⟩,
          ⟨1, "ao khoac", 8, true, 20⟩]).filter
        (fun r => keyOf r = (1, "ao khoac")) = [out] ∧
      out.date = 1 ∧ out.keyword = "ao khoac" ∧
      out.score ∈ (([⟨1, "ao khoac", 5, false, 10⟩, ⟨1, "ao khoac", 8, true, 20⟩] :
        List TrendRow).filter (fun r => keyOf r = (1, "ao khoac"))).map TrendRow.score ∧
      (∀ r ∈ ([⟨1, "ao khoac", 5, false, 10⟩, ⟨1, "ao khoac", 8, true, 20⟩] :
        List TrendRow).filter (fun r => keyOf r = (1, "ao khoac")), r.score ≤ out.score) ∧
      (out.partFlag = true ↔ ∃ r ∈ ([⟨1, "ao khoac", 5, false, 10⟩,
          ⟨1, "ao khoac", 8, true, 20⟩] : List TrendRow).filter
        (fun r => keyOf r = (1, "ao khoac")), r.partFlag = true) ∧
      out.inserted_at ∈ (([⟨1, "ao khoac", 5, false, 10⟩, ⟨1, "ao khoac", 8, true, 20⟩] :
        List TrendRow).filter (fun r => keyOf r = (1, "ao khoac"))).map TrendRow.inserted_at ∧
      (∀ r ∈ ([⟨1, "ao khoac", 5, false, 10⟩, ⟨1, "ao khoac", 8, true, 20⟩] :
        List TrendRow).filter (fun r => keyOf r = (1, "ao khoac")),
        r.inserted_at ≤ out.inserted_at) :=
  ⟨by decide, C3_trend_duplicate_keys_aggregate
    [⟨1, "ao khoac", 5, false, 10⟩, ⟨1, "ao khoac", 8, true, 20⟩] 1 "ao khoac" (by decide)⟩

lemma astypeInt64_spec :
    ∀ (l : List NumCell) (out : List Int), astypeInt64 l = Option.some out →
      out.length = l.length ∧
      ∀ i (hi : i < l.length) (ho : i < out.length),
        astypeCellInt l[i] = Option.some out[i]
  | [], out, h => by
    simp only [astypeInt64] at h
    injection h with h
    subst h
    exact ⟨rfl, fun i hi => absurd hi (by simp)⟩
  | c :: cs, out, h => by
    simp only [astypeInt64] at h
    cases hc : astypeCellInt c with
    | none => rw [hc] at h; exact absurd h (by simp)
    | some n =>
      rw [hc] at h
      cases hrec : astypeInt64 cs with
      | none => rw [hrec] at h; exact absurd h (by simp)
      | some ns =>
        rw [hrec] at h
        injection h with h
        subst h
        obtain ⟨hlen, hcell⟩ := astypeInt64_spec cs ns hrec
        refine ⟨by simp [hlen], ?_⟩
        intro i hi ho
        cases i with
        | zero => simpa using hc
        | succ j =>
          have hj : j < cs.length := by simpa using hi
          have hj2 : j < ns.length := by simpa using ho
          simpa using hcell j hj hj2

lemma astypeInt64_total :
    ∀ (l : List NumCell), (∀ c ∈ l, (astypeCellInt c).isSome = true) →
      ∃ out, astypeInt64 l = Option.some out
  | [], _ => ⟨[], rfl⟩
  | c :: cs, h => by
    obtain ⟨n, hn⟩ := Option.isSome_iff_exists.mp (h c (List.mem_cons_self _ _))
    obtain ⟨out, hout⟩ := astypeInt64_total cs (fun x hx => h x (List.mem_cons_of_mem _ hx))
    exact ⟨n :: out, by simp only [astypeInt64, hn, hout]⟩

lemma cleanedScore_lt1 : cleanedScore true (PyVal.str "<1") = NumCell.num ⟨0, 0⟩ := by
  decide

lemma cleanedScore_na (b : Bool) (c : PyVal) (h : scalarIsNa c = true) :
    cleanedScore b c = NumCell.num ⟨0, 0⟩ := by
  cases c with
  | none => cases b <;> rfl
  | nan => cases b <;> rfl
  | int n => simp [scalarIsNa] at h
  | float f => simp [scalarIsNa] at h
  | str s => simp [scalarIsNa] at h
  | list xs => simp [scalarIsNa] at h

lemma cleanedScore_badstr (s : String) (hp : pyNumericStrParse s = Option.none) :
    cleanedScore true (PyVal.str s) = NumCell.num ⟨0, 0⟩ := by
  by_cases hs : s = "<1"
  · subst hs; decide
  · simp [cleanedScore, replaceLtOne, hs, toNumericCoerce, hp, fillnaZero]

lemma astype_ok_of_scalar (hasStr : Bool) (c : PyVal) (hsc : c.isScalar = true)
    (hstr : isStrCell c = true → hasStr = true)
    (hinf : ∀ s, c = PyVal.str s → parsesInf s = false) :
    (astypeCellInt (cleanedScore hasStr c)).isSome = true := by
  cases c with
  | list xs => simp [PyVal.isScalar] at hsc
  | none => cases hasStr <;> rfl
  | nan => cases hasStr <;> rfl
  | int n => cases hasStr <;> rfl
  | float f => cases hasStr <;> rfl
  | str s =>
    have hT : hasStr = true := hstr rfl
    subst hT
    by_cases hs : s = "<1"
    · subst hs; decide
    · have hinfs := hinf s rfl
      cases hp : pyNumericStrParse s with
      | none =>
        rw [cleanedScore_badstr s hp]
        rfl
      | some pn =>
        cases pn with
        | finite f =>
          simp [cleanedScore, replaceLtOne, hs, toNumericCoerce, hp, fillnaZero,
            astypeCellInt]
        | posInf => simp [parsesInf, hp] at hinfs
        | negInf => simp [parsesInf, hp] at hinfs

/-- The category-relevant cells of one record. -/
structure CatRow where
  category_path : PyVal
  category_id : PyVal
  root_category_id : PyVal
  category_depth : PyVal
  category_url : PyVal

/-- A frame restricted to the category columns (`category_url` models
the always-present `_category_url`). -/
structure CatTable where
  hasCategoryPath : Bool
  hasCategoryId : Bool
  hasRootCategoryId : Bool
  hasCategoryDepth : Bool
  rows : List CatRow

/-- `str.split('>')` on a character list. -/
def splitOnGt : List Char → List (List Char)
  | [] => [[]]
  | c :: cs =>
    if c = '>' then [] :: splitOnGt cs
    else
      match splitOnGt cs with
      | [] => [[c]]
      | p :: ps => (c :: p) :: ps

/-- `[int(x.strip()) for x in segments]`: any failing segment raises
(caught by the caller). -/
def mapIntParse : List (List Char) → Option (List Int)
  | [] => Option.some []
  | seg :: rest =>
    match pyIntParse (String.mk seg), mapIntParse rest with
    | Option.some n, Option.some ns => Option.some (n :: ns)
    | _, _ => Option.none

/-- `parse_category_path` (lines 476-487): missing or falsy input — or
any exception, including the ambiguous-truth one — yields `[]`. -/
def parse_category_path (cell : PyVal) : List Int :=
  match pdIsNaTruth cell with
  | Except.error _ => []
  | Except.ok true => []
  | Except.ok false =>
    if pyFalsy cell then []
    else
      match mapIntParse (splitOnGt (pyStr cell).toList) with
      | Option.some ids => ids
      | Option.none => []

/-- Writing an `Option[int]` into a cell (`None` lands as a missing
value). -/
def optIntToCell : Option Int → PyVal
  | Option.some n => PyVal.int n
  | Option.none => PyVal.none

/-- Cell-level `fillna`: a non-missing cell is kept. -/
def fillnaCell (old new : PyVal) : PyVal :=
  if scalarIsNa old then new else old

/-- Cell-level `== 0` (pandas semantics: missing and non-numeric cells
compare unequal). -/
def pyEqZero : PyVal → Bool
  | PyVal.int n => n = 0
  | PyVal.float f => f.m = 0
  | _ => false

/-- `get_leaf_id` of the parsed path (line 495). -/
def leafCellOf (r : CatRow) : PyVal :=
  optIntToCell (parse_category_path r.category_path).getLast?

/-- `get_root_id` of the parsed path (line 499). -/
def rootCellOf (r : CatRow) : PyVal :=
  optIntToCell (parse_category_path r.category_path).head?

/-- `get_depth` of the parsed path (line 503). -/
def depthCellOf (r : CatRow) : PyVal :=
  PyVal.int ((parse_category_path r.category_path).length : Int)

/-- One row of the `category_path` block (lines 505-529): each of the
three fields is either wholly recomputed (column absent or all-missing /
all-zero) or fill-missing patched. -/
def pathFillRow (allIdNa allRootNa allDepthZero : Bool) (r : CatRow) : CatRow :=
  { r with
    category_id :=
      if allIdNa then leafCellOf r else fillnaCell r.category_id (leafCellOf r),
    root_category_id :=
      if allRootNa then rootCellOf r else fillnaCell r.root_category_id (rootCellOf r),
    category_depth :=
      if allDepthZero then depthCellOf r
      else if pyEqZero r.category_depth then depthCellOf r else r.category_depth }

/-- Lines 490-532: the `if 'category_path' in df.columns` block. -/
def pathStep (t : CatTable) : List CatRow :=
  if t.hasCategoryPath then
    t.rows.map (pathFillRow
      (!t.hasCategoryId || t.rows.all (fun r => scalarIsNa r.category_id))
      (!t.hasRootCategoryId || t.rows.all (fun r => scalarIsNa r.root_category_id))
      (!t.hasCategoryDepth || t.rows.all (fun r => pyEqZero r.category_depth)))
  else t.rows

/-- `df['_category_url'].apply(extract_category_id)`: sequential, the
first raising cell aborts the frame operation. -/
def mapExtract : List CatRow → Except String (List (Option Int))
  | [] => Except.ok []
  | r :: rs =>
    match extract_category_id r.category_url, mapExtract rs with
    | Except.ok v, Except.ok vs => Except.ok (v :: vs)
    | Except.error e, _ => Except.error e
    | _, Except.error e => Except.error e

/-- Column bookkeeping after the block: `category_id` always exists
afterwards; root/depth exist whenever they did before or
`category_path` did. -/
def finishTable (t : CatTable) (rows2 : List CatRow) : CatTable :=
  { t with
    rows := rows2
    hasCategoryId := true
    hasRootCategoryId := t.hasRootCategoryId || t.hasCategoryPath
    hasCategoryDepth := t.hasCategoryDepth || t.hasCategoryPath }

/-- Lines 490-541: path block followed by the URL fallback
(`'category_id' not in df.columns or df['category_id'].isna().any()`). -/
def resolve_categories (t : CatTable) : Except String CatTable :=
  let rows1 := pathStep t
  let hasId1 := t.hasCategoryId || t.hasCategoryPath
  let finish := finishTable t
  if !hasId1 then
    match mapExtract rows1 with
    | Except.error e => Except.error e
    | Except.ok urls =>
      Except.ok (finish (List.zipWith
        (fun r v => { r with category_id := optIntToCell v }) rows1 urls))
  else if rows1.any (fun r => scalarIsNa r.category_id) then
    match mapExtract rows1 with
    | Except.error e => Except.error e
    | Except.ok urls =>
      Except.ok (finish (List.zipWith
        (fun r v => { r with category_id := fillnaCell r.category_id (optIntToCell v) })
        rows1 urls))
  else Except.ok (finish rows1)

lemma mapExtract_length :
    ∀ (l : List CatRow) (urls : List (Option Int)),
      mapExtract l = Except.ok urls → urls.length = l.length
  | [], urls, h => by
    simp only [mapExtract] at h
    injection h with h
    rw [← h]
    rfl
  | r :: rs, urls, h => by
    simp only [mapExtract] at h
    cases hx : extract_category_id r.category_url with
    | error e => rw [hx] at h; exact absurd h (by simp)
    | ok v =>
      rw [hx] at h
      cases hrec : mapExtract rs with
      | error e => rw [hrec] at h; exact absurd h (by simp)
      | ok vs =>
        rw [hrec] at h
        injection h with h
        rw [← h, List.length_cons, List.length_cons,
          mapExtract_length rs vs hrec]

lemma pathStep_length (t : CatTable) : (pathStep t).length = t.rows.length := by
  unfold pathStep
  split <;> simp

lemma pathFillRow_id (a b c : Bool) (r : CatRow)
    (h : scalarIsNa r.category_id = false) (ha : a = false) :
    (pathFillRow a b c r).category_id = r.category_id := by
  simp [pathFillRow, ha, fillnaCell, h]

lemma pathFillRow_root (a b c : Bool) (r : CatRow)
    (h : scalarIsNa r.root_category_id = false) (hb : b = false) :
    (pathFillRow a b c r).root_category_id = r.root_category_id := by
  simp [pathFillRow, hb, fillnaCell, h]

lemma pathFillRow_depth (a b c : Bool) (r : CatRow)
    (h : pyEqZero r.category_depth = false) (hc : c = false) :
    (pathFillRow a b c r).category_depth = r.category_depth := by
  simp [pathFillRow, hc, h]

lemma pathStep_preserves_id (t : CatTable) (i : Nat) (hi : i < t.rows.length)
    (hcol : t.hasCategoryId = true)
    (hna : scalarIsNa (t.rows[i]).category_id = false) :
    ∃ h1 : i < (pathStep t).length,
      ((pathStep t)[i]).category_id = (t.rows[i]).category_id := by
  refine ⟨by rw [pathStep_length]; exact hi, ?_⟩
  unfold pathStep
  by_cases hp : t.hasCategoryPath = true
  · simp only [hp, if_pos]
    rw [List.getElem_map]
    refine pathFillRow_id _ _ _ _ hna ?_
    have hall : t.rows.all (fun r => scalarIsNa r.category_id) = false := by
      rcases Bool.eq_false_or_eq_true (t.rows.all (fun r => scalarIsNa r.category_id))
        with ht | hf
      · exact absurd (List.all_eq_true.mp ht _ (List.getElem_mem hi)) (by rw [hna]; decide)
      · exact hf
    rw [hcol, hall]
    rfl
  · simp only [Bool.not_eq_true] at hp
    simp [hp]

lemma pathStep_preserves_root (t : CatTable) (i : Nat) (hi : i < t.rows.length)
    (hcol : t.hasRootCategoryId = true)
    (hna : scalarIsNa (t.rows[i]).root_category_id = false) :
    ∃ h1 : i < (pathStep t).length,
      ((pathStep t)[i]).root_category_id = (t.rows[i]).root_category_id := by
  refine ⟨by rw [pathStep_length]; exact hi, ?_⟩
  unfold pathStep
  by_cases hp : t.hasCategoryPath = true
  · simp only [hp, if_pos]
    rw [List.getElem_map]
    refine pathFillRow_root _ _ _ _ hna ?_
    have hall : t.rows.all (fun r => scalarIsNa r.root_category_id) = false := by
      rcases Bool.eq_false_or_eq_true (t.rows.all (fun r => scalarIsNa r.root_category_id))
        with ht | hf
      · exact absurd (List.all_eq_true.mp ht _ (List.getElem_mem hi)) (by rw [hna]; decide)
      · exact hf
    rw [hcol, hall]
    rfl
  · simp only [Bool.not_eq_true] at hp
    simp [hp]

lemma pathStep_preserves_depth (t : CatTable) (i : Nat) (hi : i < t.rows.length)
    (hcol : t.hasCategoryDepth = true)
    (hnz : pyEqZero (t.rows[i]).category_depth = false) :
    ∃ h1 : i < (pathStep t).length,
      ((pathStep t)[i]).category_depth = (t.rows[i]).category_depth := by
  refine ⟨by rw [pathStep_length]; exact hi, ?_⟩
  unfold pathStep
  by_cases hp : t.hasCategoryPath = true
  · simp only [hp, if_pos]
    rw [List.getElem_map]
    refine pathFillRow_depth _ _ _ _ hnz ?_
    have hall : t.rows.all (fun r => pyEqZero r.category_depth) = false := by
      rcases Bool.eq_false_or_eq_true (t.rows.all (fun r => pyEqZero r.category_depth))
        with ht | hf
      · exact absurd (List.all_eq_true.mp ht _ (List.getElem_mem hi)) (by rw [hnz]; decide)
      · exact hf
    rw [hcol, hall]
    rfl
  · simp only [Bool.not_eq_true] at hp
    simp [hp]

/-- C8: the category hierarchy resolution is fill-missing only — a
record already carrying a non-null `category_id` or `root_category_id`,
or a non-zero `category_depth`, keeps that exact value through the
path block and the URL fallback. -/
theorem C8_category_fields_fill_missing_only (t t2 : CatTable)
    (hres : resolve_categories t = Except.ok t2) (i : Nat) (hi : i < t.rows.length) :
    ∃ hi2 : i < t2.rows.length,
      (t.hasCategoryId = true → scalarIsNa (t.rows[i]).category_id = false →
        (t2.rows[i]).category_id = (t.rows[i]).category_id) ∧
      (t.hasRootCategoryId = true → scalarIsNa (t.rows[i]).root_category_id = false →
        (t2.rows[i]).root_category_id = (t.rows[i]).root_category_id) ∧
      (t.hasCategoryDepth = true → pyEqZero (t.rows[i]).category_depth = false →
        (t2.rows[i]).category_depth = (t.rows[i]).category_depth) := by
  have hlen1 : i < (pathStep t).length := by rw [pathStep_length]; exact hi
  simp only [resolve_categories] at hres
  split at hres
  case isTrue hid1 =>
    -- `category_id` column absent everywhere: wholesale overwrite from URLs
    have hidF : t.hasCategoryId = false := by
      revert hid1
      cases t.hasCategoryId <;> simp
    cases hmap : mapExtract (pathStep t) with
    | error e => rw [hmap] at hres; exact absurd hres (by simp)
    | ok urls =>
      rw [hmap] at hres
      injection hres with hres
      have hurls : urls.length = t.rows.length := by
        rw [mapExtract_length _ _ hmap, pathStep_length]
      have hrows2 : t2.rows = List.zipWith
          (fun r v => { r with category_id := optIntToCell v }) (pathStep t) urls := by
        rw [← hres]; rfl
      have hi2 : i < t2.rows.length := by
        rw [hrows2, List.length_zipWith, pathStep_length, hurls]
        simpa using hi
      refine ⟨hi2, ?_, ?_, ?_⟩
      · intro hcol
        rw [hcol] at hidF
        exact absurd hidF (by decide)
      · intro hcol hna
        have hz : (t2.rows[i]).root_category_id = ((pathStep t)[i]).root_category_id := by
          have : t2.rows[i] = (fun r v => { r with category_id := optIntToCell v })
              ((pathStep t)[i]) (urls[i]) := by
            simp only [hrows2]
            exact List.getElem_zipWith
          rw [this]
        obtain ⟨h1, hpres⟩ := pathStep_preserves_root t i hi hcol hna
        rw [hz, hpres]
      · intro hcol hnz
        have hz : (t2.rows[i]).category_depth = ((pathStep t)[i]).category_depth := by
          have : t2.rows[i] = (fun r v => { r with category_id := optIntToCell v })
              ((pathStep t)[i]) (urls[i]) := by
            simp only [hrows2]
            exact List.getElem_zipWith
          rw [this]
        obtain ⟨h1, hpres⟩ := pathStep_preserves_depth t i hi hcol hnz
        rw [hz, hpres]
  case isFalse hid1 =>
    split at hres
    case isTrue hany =>
      -- some `category_id` still missing: fill the gaps from URLs
      cases hmap : mapExtract (pathStep t) with
      | error e => rw [hmap] at hres; exact absurd hres (by simp)
      | ok urls =>
        rw [hmap] at hres
        injection hres with hres
        have hurls : urls.length = t.rows.length := by
          rw [mapExtract_length _ _ hmap, pathStep_length]
        have hrows2 : t2.rows = List.zipWith
            (fun r v => { r with category_id := fillnaCell r.category_id (optIntToCell v) })
            (pathStep t) urls := by
          rw [← hres]; rfl
        have hi2 : i < t2.rows.length := by
          rw [hrows2, List.length_zipWith, pathStep_length, hurls]
          simpa using hi
        have hrow : t2.rows[i] = (fun r v =>
            { r with category_id := fillnaCell r.category_id (optIntToCell v) })
            ((pathStep t)[i]) (urls[i]) := by
          simp only [hrows2]
          exact List.getElem_zipWith
        refine ⟨hi2, ?_, ?_, ?_⟩
        · intro hcol hna
          obtain ⟨h1, hpres⟩ := pathStep_preserves_id t i hi hcol hna
          rw [hrow]
          show fillnaCell ((pathStep t)[i]).category_id _ = _
          rw [hpres, fillnaCell, hna]
          rfl
        · intro hcol hna
          obtain ⟨h1, hpres⟩ := pathStep_preserves_root t i hi hcol hna
          rw [hrow]
          exact hpres
        · intro hcol hnz
          obtain ⟨h1, hpres⟩ := pathStep_preserves_depth t i hi hcol hnz
          rw [hrow]
          exact hpres
    case isFalse hany =>
      -- no missing `category_id`: the fallback writes nothing
      injection hres with hres
      have hrows2 : t2.rows = pathStep t := by rw [← hres]; rfl
      have hi2 : i < t2.rows.length := by rw [hrows2]; exact hlen1
      refine ⟨hi2, ?_, ?_, ?_⟩
      · intro hcol hna
        obtain ⟨h1, hpres⟩ := pathStep_preserves_id t i hi hcol hna
        simp only [hrows2]
        exact hpres
      · intro hcol hna
        obtain ⟨h1, hpres⟩ := pathStep_preserves_root t i hi hcol hna
        simp only [hrows2]
        exact hpres
      · intro hcol hnz
        obtain ⟨h1, hpres⟩ := pathStep_preserves_depth t i hi hcol hnz
        simp only [hrows2]
        exact hpres

/-- A one-record table that already carries all three hierarchy fields
(the resolver leaves it untouched, so it is its own output). -/
def sampleCatTable : CatTable :=
  ⟨true, true, true, true,
    [⟨PyVal.str "1815 > 28670", PyVal.int 99, PyVal.int 5, PyVal.int 2,
      PyVal.str "https://tiki.vn/x/c777"⟩]⟩

/-- Witness for C8: on `sampleCatTable` the resolver succeeds and the
pre-existing id/root/depth values survive unchanged. -/
theorem C8_witness :
    ∃ hi2 : 0 < sampleCatTable.rows.length,
      (sampleCatTable.hasCategoryId = true →
        scalarIsNa (sampleCatTable.rows[0]).category_id = false →
        (sampleCatTable.rows[0]).category_id = (sampleCatTable.rows[0]).category_id) ∧
      (sampleCatTable.hasRootCategoryId = true →
        scalarIsNa (sampleCatTable.rows[0]).root_category_id = false →
        (sampleCatTable.rows[0]).root_category_id =
          (sampleCatTable.rows[0]).root_category_id) ∧
      (sampleCatTable.hasCategoryDepth = true →
        pyEqZero (sampleCatTable.rows[0]).category_depth = false →
        (sampleCatTable.rows[0]).category_depth =
          (sampleCatTable.rows[0]).category_depth) :=
  C8_category_fields_fill_missing_only sampleCatTable sampleCatTable rfl 0 (by decide)

/-! ## Column-level model of `transform_data` (C1)

Only column names matter for the schema claim, so the frame is modelled
by its column list (in order) over an enumeration of the column names
appearing in `transform_tiki.py` (leading-underscore source names are
spelled with a `u` marker: `u_extracted_at` stands for `_extracted_at`,
`u_category_url` for `_category_url`, `u_category_name` for
`_category_name`, `u_source_page` for `_source_page`, `u_parsed_path`
for `_parsed_path`).  Reading a column that does not exist (`df[...]`)
raises a `KeyError`, modelled by `Option`; an assignment `df[c] = ...`
appends `c` when absent.  Branches of the source whose condition
depends on cell values assign the same columns in both arms and are
modelled by the unconditional column effect. -/

inductive Col where
  | product_id | sku | name | brand | brand_name | thumbnail_url | image_url | product_url
  | seller_id | seller | seller_name | seller_logo | price | current_price | original_price
  | discount_rate | quantity_sold | sales_volume | sales_volume_acc | rating | rating_average
  | review_count | u_extracted_at | extracted_at | badges | u_category_url | u_category_name
  | u_source_page | category_path | category_id | root_category_id | category_depth
  | category_name | snapshot_date | inventory_status | tiki_now | u_parsed_path | created_at
  | updated_at | url_key | category_level | full_path | parent_id | standard_category
deriving DecidableEq

def FACT_SCHEMA : List Col :=
  [Col.snapshot_date, Col.product_id, Col.current_price, Col.original_price,
   Col.discount_rate, Col.sales_volume_acc, Col.review_count, Col.rating_average,
   Col.inventory_status, Col.tiki_now, Col.extracted_at]

def DIM_PRODUCTS_SCHEMA : List Col :=
  [Col.product_id, Col.sku, Col.name, Col.brand_name, Col.image_url, Col.product_url,
   Col.seller_id, Col.seller_name, Col.seller_logo, Col.category_id, Col.root_category_id,
   Col.category_depth, Col.created_at, Col.updated_at]

def DIM_CATEGORIES_SCHEMA : List Col :=
  [Col.category_id, Col.category_name, Col.category_level, Col.full_path, Col.url_key,
   Col.parent_id, Col.standard_category]

/-- The `df.rename(columns={...})` map (lines 431-440). -/
def renameCol (c : Col) : Col :=
  if c = Col.u_extracted_at then Col.extracted_at
  else if c = Col.thumbnail_url then Col.image_url
  else if c = Col.seller then Col.seller_name
  else if c = Col.brand then Col.brand_name
  else if c = Col.quantity_sold then Col.sales_volume
  else if c = Col.rating then Col.rating_average
  else c

/-- `df[c] = ...`: appends a new column at the end. -/
def ensureCol : List Col → Col → List Col
  | [], c => [c]
  | x :: xs, c => if x = c then x :: xs else x :: ensureCol xs c

/-- `df.drop(columns=[c])`. -/
def dropCol (df : List Col) (c : Col) : List Col :=
  df.filter (fun x => x ≠ c)

/-- `df[c]` on the right-hand side: `KeyError` when absent. -/
def needCol (df : List Col) (c : Col) : Option Unit :=
  if c ∈ df then Option.some () else Option.none

/-- `df[cols]`: `KeyError` unless every requested column exists. -/
def selectCols (df : List Col) (cols : List Col) : Option (List Col) :=
  if ∀ c ∈ cols, c ∈ df then Option.some cols else Option.none

/-- The missing-column loop `for col in SCHEMA: if col not in df: df[col] = None`. -/
def addMissing (df : List Col) (schema : List Col) : List Col :=
  schema.foldl ensureCol df

/-- `df.loc[:, ~df.columns.duplicated()]`: keep first occurrences. -/
def dedupColumns : List Col → List Col → List Col
  | [], _ => []
  | c :: cs, seen =>
    if c ∈ seen then dedupColumns cs seen else c :: dedupColumns cs (c :: seen)

/-- The raw columns the crawler always supplies, plus the optional
category columns per flags: `category_path`, `category_id`,
`root_category_id`, `category_depth`, `category_name`. -/
def rawCols (hasPath hasId hasRoot hasDepth hasName : Bool) : List Col :=
  [Col.product_id, Col.sku, Col.name, Col.brand, Col.thumbnail_url, Col.product_url,
   Col.seller_id, Col.seller, Col.seller_logo, Col.price, Col.original_price,
   Col.discount_rate, Col.quantity_sold, Col.rating, Col.review_count, Col.u_extracted_at,
   Col.badges, Col.u_category_url, Col.u_category_name, Col.u_source_page]
  ++ (if hasPath then [Col.category_path] else [])
  ++ (if hasId then [Col.category_id] else [])
  ++ (if hasRoot then [Col.root_category_id] else [])
  ++ (if hasDepth then [Col.category_depth] else [])
  ++ (if hasName then [Col.category_name] else [])

/-- Lines 430-471: rename, then the column-wise parses (each reads its
source column and the new derived columns are appended). -/
def parsed_columns (raw : List Col) : Option (List Col) := do
  let df := raw.map renameCol
  let _ ← needCol df Col.extracted_at
  let df := ensureCol df Col.snapshot_date
  let _ ← needCol df Col.product_id
  let _ ← needCol df Col.seller_id
  let _ ← needCol df Col.price
  let df := ensureCol df Col.current_price
  let _ ← needCol df Col.original_price
  let _ ← needCol df Col.discount_rate
  let _ ← needCol df Col.sales_volume
  let df := ensureCol df Col.sales_volume_acc
  let _ ← needCol df Col.rating_average
  let _ ← needCol df Col.review_count
  Option.some df

/-- Lines 473-576: the category block (every value-dependent branch of
lines 505-529 assigns the same three columns, and `_parsed_path` is
dropped again), the URL fallback that creates `category_id` when the
column is absent, then `inventory_status`, `tiki_now` and the
`extracted_at` datetime conversion. -/
def category_columns (df0 : List Col) : Option (List Col) := do
  let df := if Col.category_path ∈ df0 then
      dropCol (ensureCol (ensureCol (ensureCol (ensureCol df0 Col.u_parsed_path)
        Col.category_id) Col.root_category_id) Col.category_depth) Col.u_parsed_path
    else df0
  let df ← if Col.category_id ∈ df then Option.some df
    else (needCol df Col.u_category_url).map (fun _ => ensureCol df Col.category_id)
  let _ ← needCol df Col.category_id
  let df := ensureCol df Col.inventory_status
  let _ ← needCol df Col.badges
  let df := ensureCol df Col.tiki_now
  let _ ← needCol df Col.extracted_at
  Option.some df

/-- Lines 622-637: the product-dimension split.  `category_name` is in
the unconditional part of `dim_columns`; only `root_category_id` and
`category_depth` are guarded by `in df.columns` checks.  `created_at`
and `updated_at` are then appended. -/
def dim_split (df : List Col) : Option (List Col) := do
  let dimCols := [Col.product_id, Col.sku, Col.name, Col.brand_name, Col.image_url,
      Col.product_url, Col.seller_id, Col.seller_name, Col.seller_logo, Col.category_id,
      Col.category_name]
    ++ (if Col.root_category_id ∈ df then [Col.root_category_id] else [])
    ++ (if Col.category_depth ∈ df then [Col.category_depth] else [])
  let dim ← selectCols df dimCols
  Option.some (ensureCol (ensureCol dim Col.created_at) Col.updated_at)

/-- Lines 640-749: the category-dimension build: select, derive
`url_key`/`category_level`/`full_path`/`parent_id`/`standard_category`
(each assigned in every branch), drop the helper and non-schema
columns, add missing schema columns, select the schema, and keep first
occurrences if any column name repeats. -/
def cat_split (df : List Col) : Option (List Col) := do
  let catCols := [Col.category_id, Col.u_category_url]
    ++ (if Col.category_name ∈ df then [Col.category_name] else [])
    ++ (if Col.root_category_id ∈ df then [Col.root_category_id] else [])
    ++ (if Col.category_depth ∈ df then [Col.category_depth] else [])
  let cat ← selectCols df catCols
  let cat := ensureCol cat Col.url_key
  let cat := if Col.category_name ∈ cat then cat else ensureCol cat Col.category_name
  let cat := ensureCol cat Col.category_level
  let cat := ensureCol cat Col.full_path
  let cat := ensureCol cat Col.parent_id
  let cat := ensureCol cat Col.standard_category
  let cat := dropCol cat Col.u_category_url
  let cat := if Col.root_category_id ∈ cat then dropCol cat Col.root_category_id else cat
  let cat := if Col.category_depth ∈ cat then dropCol cat Col.category_depth else cat
  let cat := addMissing cat DIM_CATEGORIES_SCHEMA
  let cat ← selectCols cat DIM_CATEGORIES_SCHEMA
  Option.some (if cat.Nodup then cat else dedupColumns cat [])

/-- Column-level effect of `transform_data` (lines 411-775), producing
the column lists of the fact, product-dimension and category-dimension
frames; `Option.none` models a raised `KeyError`.  Dedup (582-587) and
dropna (593-595) leave the columns unchanged; the fact split is line
607 and the fact/dim schema enforcement is lines 751-761. -/
def transform_columns (raw : List Col) : Option (List Col × List Col × List Col) := do
  let df ← parsed_columns raw
  let df ← category_columns df
  let fact ← selectCols df
    [Col.snapshot_date, Col.product_id, Col.current_price, Col.original_price,
     Col.discount_rate, Col.sales_volume_acc, Col.review_count, Col.rating_average,
     Col.inventory_status, Col.tiki_now, Col.extracted_at]
  let dim ← dim_split df
  let cat ← cat_split df
  let fact := addMissing fact FACT_SCHEMA
  let fact ← selectCols fact FACT_SCHEMA
  let dim := addMissing dim DIM_PRODUCTS_SCHEMA
  let dim ← selectCols dim DIM_PRODUCTS_SCHEMA
  Option.some (fact, dim, cat)

/-- C1 counterexample: a raw batch carrying all optional columns except
`category_name` makes `transform_data` raise a `KeyError` at the
product-dimension split (line 631 selects `category_name`
unconditionally), so the three outputs are not produced at all. -/
theorem C1_counterexample_missing_category_name :
    transform_columns (rawCols true true true true false) = Option.none := by
  decide

/-- C1 (amended): provided the raw batch carries `category_name`, the
three outputs of the transform have exactly the target column sets in
target order, whichever of `category_path`, `category_id`,
`root_category_id`, `category_depth` are present. -/
theorem C1_schemas_enforced_given_category_name (hasPath hasId hasRoot hasDepth : Bool) :
    transform_columns (rawCols hasPath hasId hasRoot hasDepth true) =
      Option.some (FACT_SCHEMA, DIM_PRODUCTS_SCHEMA, DIM_CATEGORIES_SCHEMA) := by
  revert hasPath hasId hasRoot hasDepth
  decide

/-- Witness for C1 at one concrete flag combination. -/
theorem C1_witness :
    transform_columns (rawCols true false true false true) =
      Option.some (FACT_SCHEMA, DIM_PRODUCTS_SCHEMA, DIM_CATEGORIES_SCHEMA) :=
  C1_schemas_enforced_given_category_name true false true false
